import Mathlib

/-!
Shallow embedding of `src/conc/promise.js` (jive.conc.Promise) from the
jiverscripts repository, together with the parts of `jive.conc.observable`
that the Promise uses.  The Promise source is under `src/`; the observable
mixin is not, so its three operations (`addListener`, `removeListener`,
`emit`) are modelled from the specification (spec section 4.1) and marked
as such in their doc comments.

Listeners are identified by opaque numeric handles; what a listener
"receives" is recorded in emission records rather than by executing
callback bodies, except in the re-entrant interpreter `execOps`, where a
listener's behaviour is a script of operations it performs on the same
promise when invoked.
-/

namespace Jiverscripts

/-- A JavaScript value as it appears in event arguments: numbers, strings,
and `Error` objects carrying a message (the code emits `new Error('timeout')`). -/
inductive Val where
  | num (n : Int)
  | str (s : String)
  | err (msg : String)
deriving DecidableEq, Repr

/-- Return value of a Promise method: the receiver itself (`return this`),
JavaScript `undefined`, or a stored timeout duration in milliseconds. -/
inductive RetVal where
  | self
  | undef
  | dur (n : Nat)
deriving DecidableEq, Repr

/-- A scheduled timeout callback: the opaque handle returned by the host
timer facility (`setTimeout`), together with the delay it was scheduled for. -/
structure TimerH where
  id : Nat
  delay : Nat
deriving DecidableEq, Repr

/-- State of one `jive.conc.Promise`: the closure variables `hasFired`,
`cancelled`, `timeoutDuration` and `timer` of the constructor, plus the
listener registry of the mixed-in observable and a counter supplying fresh
timer handles.  `timeoutDuration` is `none` while still `undefined`;
`timer` is `none` while the variable is unset or `null`.  The listener
registry keeps `(eventName, listenerId)` pairs in registration order. -/
structure Promise where
  hasFired : Bool
  cancelled : Bool
  timeoutDuration : Option Nat
  timer : Option TimerH
  listeners : List (String × Nat)
  nextId : Nat
deriving DecidableEq, Repr

/-- A freshly constructed Promise: both flags false, no timeout recorded,
no timer scheduled, no listeners. -/
def freshPromise : Promise :=
  { hasFired := false, cancelled := false, timeoutDuration := none,
    timer := none, listeners := [], nextId := 0 }

/-- One internal event emission: the event name, the arguments passed, and
the ids of the listeners registered for that event at emission time, in
registration order (the listeners the observable delivers the event to). -/
structure Emitted where
  ev : String
  args : List Val
  recipients : List Nat
deriving DecidableEq, Repr

namespace Promise

/-- Modelled from the spec: `observable.addListener(eventName, callback)`
is not under `src/`; per spec section 4.1 it appends the callback to the end
of that event's list (insertion order = invocation order, duplicates allowed). -/
def addListener (p : Promise) (e : String) (l : Nat) : Promise :=
  { p with listeners := p.listeners ++ [(e, l)] }

/-- Modelled from the spec: `observable.removeListener(eventName)` is not
under `src/`; per spec section 4.1 it clears all listeners registered for
`eventName` (coarse-grained: the whole list, not a single callback). -/
def removeListener (p : Promise) (e : String) : Promise :=
  { p with listeners := p.listeners.filter (fun pr => pr.fst ≠ e) }

/-- Modelled from the spec: the recipients of `observable.emit(eventName, ...)`
(not under `src/`) are every listener currently registered for `eventName`,
in registration order (spec section 4.1). -/
def recipients (p : Promise) (e : String) : List Nat :=
  (p.listeners.filter (fun pr => pr.fst = e)).map Prod.snd

/-- `addCallback(listener)`: adds a 'success' listener and returns the
receiver (`return this`). -/
def addCallback (p : Promise) (l : Nat) : Promise × RetVal :=
  (p.addListener "success" l, RetVal.self)

/-- `addErrback(listener)`: adds an 'error' listener and returns the receiver. -/
def addErrback (p : Promise) (l : Nat) : Promise × RetVal :=
  (p.addListener "error" l, RetVal.self)

/-- `addCancelback(listener)`: adds a 'cancel' listener and returns the receiver. -/
def addCancelback (p : Promise) (l : Nat) : Promise × RetVal :=
  (p.addListener "cancel" l, RetVal.self)

/-- `emitSuccess(...)`: if `hasFired` is false, set `hasFired = true` and
then emit 'success' with the given arguments; otherwise do nothing.  The
emission record is taken in the state with `hasFired` already set, as in
the source where the assignment precedes `this.emit`. -/
def emitSuccess (p : Promise) (args : List Val) : Promise × List Emitted :=
  if p.hasFired then (p, [])
  else
    let p1 := { p with hasFired := true }
    (p1, [⟨"success", args, p1.recipients "success"⟩])

/-- `emitError(...)`: symmetric to `emitSuccess`, emitting 'error'. -/
def emitError (p : Promise) (args : List Val) : Promise × List Emitted :=
  if p.hasFired then (p, [])
  else
    let p1 := { p with hasFired := true }
    (p1, [⟨"error", args, p1.recipients "error"⟩])

/-- `cancel()`: if `cancelled` is false, set `cancelled = true`, remove all
'success' listeners, remove all 'error' listeners, then emit 'cancel' with
no arguments (via the private `emitCancel`); otherwise do nothing. -/
def cancel (p : Promise) : Promise × List Emitted :=
  if p.cancelled then (p, [])
  else
    let p1 := { p with cancelled := true }
    let p2 := p1.removeListener "success"
    let p3 := p2.removeListener "error"
    (p3, [⟨"cancel", [], p3.recipients "cancel"⟩])

/-- The `delay` branch of `timeout`: record `timeoutDuration = d`; if a
timer is scheduled, `clearTimeout` it and null the handle; then schedule a
fresh timer for `timeoutDuration` milliseconds and return the receiver. -/
def timeoutSet (p : Promise) (d : Nat) : Promise × RetVal :=
  let p1 := { p with timeoutDuration := some d }
  let p2 := match p1.timer with
            | some _ => { p1 with timer := none }
            | none => p1
  let p3 := { p2 with timer := some ⟨p2.nextId, d⟩, nextId := p2.nextId + 1 }
  (p3, RetVal.self)

/-- `timeout(delay?)`: with no argument (`typeof timeout == 'undefined'`),
return the recorded `timeoutDuration` (or `undefined`) and change nothing;
with a delay, behave as `timeoutSet`. -/
def timeout (p : Promise) (arg : Option Nat) : Promise × RetVal :=
  match arg with
  | none =>
    (p, match p.timeoutDuration with
        | some n => RetVal.dur n
        | none => RetVal.undef)
  | some d => p.timeoutSet d

/-- The host timer invoking the scheduled timeout callback.  If no timer is
pending (never scheduled, cleared, or already fired) nothing runs.  The
callback body nulls the stored handle and, when neither `hasFired` nor
`cancelled` is set, calls `emitError(new Error('timeout'))`. -/
def timerFire (p : Promise) : Promise × List Emitted :=
  match p.timer with
  | none => (p, [])
  | some _ =>
    let p1 := { p with timer := none }
    if !p1.hasFired && !p1.cancelled then p1.emitError [Val.err "timeout"]
    else (p1, [])

end Promise

/-- An operation performed on a Promise, either by the producer/consumers
or by the host timer (`timerFire`). -/
inductive Op where
  | addCallback (l : Nat)
  | addErrback (l : Nat)
  | addCancelback (l : Nat)
  | emitSuccess (args : List Val)
  | emitError (args : List Val)
  | cancel
  | timeout (arg : Option Nat)
  | timerFire
deriving DecidableEq, Repr

/-- Effect of one operation on the Promise state, with the list of events
it emits (return values are dropped here). -/
def stepOp (p : Promise) : Op → Promise × List Emitted
  | Op.addCallback l => ((p.addCallback l).1, [])
  | Op.addErrback l => ((p.addErrback l).1, [])
  | Op.addCancelback l => ((p.addCancelback l).1, [])
  | Op.emitSuccess args => p.emitSuccess args
  | Op.emitError args => p.emitError args
  | Op.cancel => p.cancel
  | Op.timeout arg => ((p.timeout arg).1, [])
  | Op.timerFire => p.timerFire

/-- Run a sequence of operations from a given state, collecting all
emissions in order. -/
def runSeq (p : Promise) : List Op → Promise × List Emitted
  | [] => (p, [])
  | op :: rest =>
    let pr := stepOp p op
    let pr2 := runSeq pr.1 rest
    (pr2.1, pr.2 ++ pr2.2)

/-- Number of 'success'/'error' emissions in an output trace. -/
def countSE (l : List Emitted) : Nat :=
  (l.filter (fun e => e.ev = "success" ∨ e.ev = "error")).length

/-- The listener scripts triggered by a batch of emissions: for each
emission, each recipient in order runs its script (given by `env`);
listener invocations are synchronous and in registration order, so
concatenating the scripts reproduces the execution order. -/
def triggered (env : Nat → List Op) (ems : List Emitted) : List Op :=
  (ems.map (fun em => (em.recipients.map env).flatten)).flatten

/-- Re-entrant interpreter: run operations where each listener, when an
event is delivered to it, synchronously performs its own script of
operations (`env l`) on the same promise — so listeners may re-enter
`emitSuccess`/`emitError`/`cancel` during an emission.  `fuel` bounds the
re-entrancy depth; when it runs out nothing further happens. -/
def execOps : Nat → (Nat → List Op) → Promise → List Op → Promise × List Emitted
  | 0, _, p, _ => (p, [])
  | _ + 1, _, p, [] => (p, [])
  | fuel + 1, env, p, op :: rest =>
    let pr := stepOp p op
    let prNested := execOps fuel env pr.1 (triggered env pr.2)
    let prRest := execOps fuel env prNested.1 rest
    (prRest.1, pr.2 ++ prNested.2 ++ prRest.2)

theorem countSE_append (l1 l2 : List Emitted) :
    countSE (l1 ++ l2) = countSE l1 + countSE l2 := by
  simp [countSE, List.filter_append]

/-- Core invariant of one step: `hasFired` flips from false to true exactly
when a 'success' or 'error' event is emitted, and never flips back. -/
theorem stepOp_hasFired_eq (p : Promise) (op : Op) :
    ((stepOp p op).1.hasFired.toNat) = p.hasFired.toNat + countSE (stepOp p op).2 := by
  cases op
  case addCallback l =>
    simp [stepOp, Promise.addCallback, Promise.addListener, countSE]
  case addErrback l =>
    simp [stepOp, Promise.addErrback, Promise.addListener, countSE]
  case addCancelback l =>
    simp [stepOp, Promise.addCancelback, Promise.addListener, countSE]
  case emitSuccess args =>
    by_cases h : p.hasFired <;> simp [stepOp, Promise.emitSuccess, h, countSE]
  case emitError args =>
    by_cases h : p.hasFired <;> simp [stepOp, Promise.emitError, h, countSE]
  case cancel =>
    by_cases h : p.cancelled <;>
      simp [stepOp, Promise.cancel, Promise.removeListener, h, countSE]
  case timeout arg =>
    cases arg with
    | none => simp [stepOp, Promise.timeout, countSE]
    | some d =>
      cases htimer : p.timer <;>
        simp [stepOp, Promise.timeout, Promise.timeoutSet, htimer, countSE]
  case timerFire =>
    cases htimer : p.timer with
    | none => simp [stepOp, Promise.timerFire, htimer, countSE]
    | some t =>
      by_cases hf : p.hasFired <;> by_cases hc : p.cancelled <;>
        simp [stepOp, Promise.timerFire, htimer, hf, hc, Promise.emitError, countSE]

/-- The invariant extends to whole sequences of operations. -/
theorem runSeq_hasFired_eq (ops : List Op) (p : Promise) :
    ((runSeq p ops).1.hasFired.toNat) = p.hasFired.toNat + countSE (runSeq p ops).2 := by
  induction ops generalizing p with
  | nil => simp [runSeq, countSE]
  | cons op rest ih =>
    simp only [runSeq, countSE_append]
    have h1 := stepOp_hasFired_eq p op
    have h2 := ih (stepOp p op).1
    omega

/-- The invariant extends to the re-entrant interpreter: even when
listeners re-enter the promise, 'success'/'error' emissions are counted by
the single `hasFired` flip. -/
theorem execOps_hasFired_eq (fuel : Nat) (env : Nat → List Op) (p : Promise) (ops : List Op) :
    ((execOps fuel env p ops).1.hasFired.toNat)
      = p.hasFired.toNat + countSE (execOps fuel env p ops).2 := by
  induction fuel generalizing p ops with
  | zero => simp [execOps, countSE]
  | succ fuel ih =>
    cases ops with
    | nil => simp [execOps, countSE]
    | cons op rest =>
      simp only [execOps, countSE_append]
      have h1 := stepOp_hasFired_eq p op
      have h2 := ih (stepOp p op).1 (triggered env (stepOp p op).2)
      have h3 := ih (execOps fuel env (stepOp p op).1 (triggered env (stepOp p op).2)).1 rest
      omega

/-- `recipients` reads only the listener registry, so setting `hasFired`
does not change it. -/
theorem recipients_set_hasFired (p : Promise) (e : String) :
    Promise.recipients { p with hasFired := true } e = p.recipients e := rfl

/-- After `removeListener e`, the event `e` has no recipients. -/
theorem recipients_removeListener_self (p : Promise) (e : String) :
    (p.removeListener e).recipients e = [] := by
  simp only [Promise.removeListener, Promise.recipients, List.filter_filter]
  rw [List.filter_eq_nil_iff.mpr]
  · simp
  · intro a _
    by_cases h : a.fst = e <;> simp [h]

/-- `removeListener e'` leaves the recipients of a different event unchanged. -/
theorem recipients_removeListener_other (p : Promise) (e e' : String) (h : e ≠ e') :
    (p.removeListener e').recipients e = p.recipients e := by
  simp only [Promise.removeListener, Promise.recipients, List.filter_filter]
  congr 1
  apply List.filter_congr
  intro a _
  by_cases ha : a.fst = e
  · simp [ha, h]
  · simp [ha]

/-- C1: for every sequence of operations on a Promise, at most one of the
'success' and 'error' events is ever emitted, and at most once: the first
call to `emitSuccess` or `emitError` sets `hasFired` and emits its event;
every later call to either (any call once `hasFired` holds) is a silent
no-op. -/
theorem single_fire_invariant (ops : List Op) (p q : Promise) (a b : List Val)
    (hp : p.hasFired = true) (hq : q.hasFired = false) :
    countSE (runSeq freshPromise ops).2 ≤ 1 ∧
    p.emitSuccess a = (p, []) ∧
    p.emitError a = (p, []) ∧
    q.emitSuccess a = ({ q with hasFired := true }, [⟨"success", a, q.recipients "success"⟩]) ∧
    q.emitError b = ({ q with hasFired := true }, [⟨"error", b, q.recipients "error"⟩]) := by
  refine ⟨?_, ?_, ?_, ?_, ?_⟩
  · have h := runSeq_hasFired_eq ops freshPromise
    have hfresh : freshPromise.hasFired = false := rfl
    rw [hfresh] at h
    cases hb : (runSeq freshPromise ops).1.hasFired <;> rw [hb] at h <;>
      simp at h <;> omega
  · simp [Promise.emitSuccess, hp]
  · simp [Promise.emitError, hp]
  · simp [Promise.emitSuccess, hq, recipients_set_hasFired]
  · simp [Promise.emitError, hq, recipients_set_hasFired]

theorem single_fire_invariant_witness :
    countSE (runSeq freshPromise [Op.emitSuccess [], Op.emitError [], Op.emitSuccess []]).2 ≤ 1 :=
  (single_fire_invariant [Op.emitSuccess [], Op.emitError [], Op.emitSuccess []]
    (Promise.emitSuccess freshPromise []).1 freshPromise [] [] (by decide) (by decide)).1

/-- C2: contrary to the claim, `cancel()` invoked after `emitSuccess` has
fired is not a no-op: its guard checks only `cancelled`, so it still emits
'cancel' to the registered cancel listener — a second terminal event after
'success', contradicting the source file's own header documentation ("Once
it has emitted a success, error, or cancel event it will not emit any more
events"). -/
theorem cancel_after_success_still_emits_cancel :
    (runSeq freshPromise [Op.addCancelback 2, Op.emitSuccess [Val.str "ok"], Op.cancel]).2
      = [⟨"success", [Val.str "ok"], []⟩, ⟨"cancel", [], [2]⟩] := by
  decide

/-- `recipients` reads only the listener registry, so setting `cancelled`
does not change it. -/
theorem recipients_set_cancelled (p : Promise) (e : String) :
    Promise.recipients { p with cancelled := true } e = p.recipients e := rfl

/-- Unfolding of the first call to `cancel` on a not-yet-cancelled promise. -/
theorem cancel_eq_of_not_cancelled (p : Promise) (hp : p.cancelled = false) :
    p.cancel
      = ((({ p with cancelled := true }).removeListener "success").removeListener "error",
         [⟨"cancel", [],
            ((({ p with cancelled := true }).removeListener "success").removeListener
              "error").recipients "cancel"⟩]) := by
  simp [Promise.cancel, hp]

/-- C3: `timeout(delay)` records `timeoutDuration = delay`, supersedes any
previously scheduled timer with a freshly scheduled one for `delay`
milliseconds, and returns the Promise itself; a pending timer that fires on
a promise that has neither fired nor been cancelled clears the stored
handle and emits a single 'error' carrying the message "timeout"; and
`timeout(100)` immediately followed by `timeout(50)` leaves exactly the
50ms timer pending and yields exactly one timeout error. -/
theorem timeout_set_and_fire (p q : Promise) (d : Nat) (t : TimerH)
    (hq1 : q.timer = some t) (hq2 : q.hasFired = false) (hq3 : q.cancelled = false) :
    p.timeout (some d)
      = ({ p with timeoutDuration := some d, timer := some ⟨p.nextId, d⟩, nextId := p.nextId + 1 },
         RetVal.self) ∧
    q.timerFire
      = ({ q with timer := none, hasFired := true },
         [⟨"error", [Val.err "timeout"], q.recipients "error"⟩]) ∧
    (runSeq freshPromise [Op.timeout (some 100), Op.timeout (some 50)]).1.timer
      = some ⟨1, 50⟩ ∧
    (runSeq freshPromise
        [Op.timeout (some 100), Op.timeout (some 50), Op.timerFire, Op.timerFire]).2
      = [⟨"error", [Val.err "timeout"], []⟩] := by
  refine ⟨?_, ?_, by decide, by decide⟩
  · cases htimer : p.timer <;>
      simp [Promise.timeout, Promise.timeoutSet, htimer]
  · have hf : ({ q with timer := none } : Promise).hasFired = false := hq2
    simp only [Promise.timerFire, hq1, Promise.emitError, hf, hq2, hq3]
    simp [Promise.recipients]

theorem timeout_set_and_fire_witness :
    (runSeq freshPromise
        [Op.timeout (some 100), Op.timeout (some 50), Op.timerFire, Op.timerFire]).2
      = [⟨"error", [Val.err "timeout"], []⟩] :=
  (timeout_set_and_fire freshPromise (Promise.timeout freshPromise (some 7)).1 7 ⟨0, 7⟩
    (by decide) (by decide) (by decide)).2.2.2

/-- `cancel` on an already-cancelled promise changes nothing and emits nothing. -/
theorem cancel_noop_of_cancelled (r : Promise) (hr : r.cancelled = true) :
    r.cancel = (r, []) := by
  simp [Promise.cancel, hr]

/-- C4: the first call to `cancel()` sets `cancelled = true`, removes all
registered 'success' and 'error' listeners (leaving those events with no
recipients while keeping the cancel listeners), and then emits the 'cancel'
event to the cancel listeners; a repeated call to `cancel()` is a no-op;
and `cancel()` never changes `hasFired`. -/
theorem cancel_first_call_spec (p q : Promise) (hp : p.cancelled = false) :
    (p.cancel).1.cancelled = true ∧
    (p.cancel).1.recipients "success" = [] ∧
    (p.cancel).1.recipients "error" = [] ∧
    (p.cancel).1.recipients "cancel" = p.recipients "cancel" ∧
    (p.cancel).2 = [⟨"cancel", [], p.recipients "cancel"⟩] ∧
    Promise.cancel (p.cancel).1 = ((p.cancel).1, []) ∧
    (q.cancel).1.hasFired = q.hasFired := by
  have e1 := cancel_eq_of_not_cancelled p hp
  have hrem : ((({ p with cancelled := true }).removeListener "success").removeListener
      "error").recipients "cancel" = p.recipients "cancel" := by
    rw [recipients_removeListener_other _ _ _ (by decide),
        recipients_removeListener_other _ _ _ (by decide), recipients_set_cancelled]
  refine ⟨?_, ?_, ?_, ?_, ?_, ?_, ?_⟩
  · rw [e1]
    simp [Promise.removeListener]
  · rw [e1]
    rw [recipients_removeListener_other _ _ _ (by decide), recipients_removeListener_self]
  · rw [e1]
    rw [recipients_removeListener_self]
  · rw [e1]
    exact hrem
  · rw [e1, hrem]
  · have hc : (p.cancel).1.cancelled = true := by
      rw [e1]
      simp [Promise.removeListener]
    exact cancel_noop_of_cancelled _ hc
  · by_cases hq : q.cancelled <;> simp [Promise.cancel, hq, Promise.removeListener]

theorem cancel_first_call_spec_witness :
    Promise.cancel (Promise.cancel (Promise.addCancelback freshPromise 3).1).1
      = ((Promise.cancel (Promise.addCancelback freshPromise 3).1).1, []) :=
  (cancel_first_call_spec (Promise.addCancelback freshPromise 3).1 freshPromise
    (by decide)).2.2.2.2.2.1

/-- C5: `emitSuccess`/`emitError` called after `cancel()` on a promise that
never fired still set `hasFired = true` (the guard checks only `hasFired`),
but the emitted event reaches no listener because `cancel()` removed all
success and error listeners; in the concrete scenario, cancel listener L2
receives 'cancel' exactly once and success listener L1 never receives
anything. -/
theorem late_resolution_after_cancel (p : Promise) (a b : List Val)
    (hf : p.hasFired = false) (hc : p.cancelled = false) :
    (Promise.emitSuccess (p.cancel).1 a).1.hasFired = true ∧
    (Promise.emitSuccess (p.cancel).1 a).2 = [⟨"success", a, []⟩] ∧
    (Promise.emitError (p.cancel).1 b).2 = [⟨"error", b, []⟩] ∧
    (runSeq freshPromise
        [Op.addCallback 1, Op.addCancelback 2, Op.cancel, Op.emitSuccess [Val.str "late"]]).2
      = [⟨"cancel", [], [2]⟩, ⟨"success", [Val.str "late"], []⟩] := by
  have e1 := cancel_eq_of_not_cancelled p hc
  have hcf : (p.cancel).1.hasFired = false := by
    rw [e1]
    simp [Promise.removeListener, hf]
  have hsucc : (p.cancel).1.recipients "success" = [] := by
    rw [e1]
    rw [recipients_removeListener_other _ _ _ (by decide), recipients_removeListener_self]
  have herr : (p.cancel).1.recipients "error" = [] := by
    rw [e1]
    rw [recipients_removeListener_self]
  refine ⟨?_, ?_, ?_, by decide⟩
  · simp [Promise.emitSuccess, hcf]
  · simp [Promise.emitSuccess, hcf, recipients_set_hasFired, hsucc]
  · simp [Promise.emitError, hcf, recipients_set_hasFired, herr]

theorem late_resolution_after_cancel_witness :
    (runSeq freshPromise
        [Op.addCallback 1, Op.addCancelback 2, Op.cancel, Op.emitSuccess [Val.str "late"]]).2
      = [⟨"cancel", [], [2]⟩, ⟨"success", [Val.str "late"], []⟩] :=
  (late_resolution_after_cancel freshPromise [] [] (by decide) (by decide)).2.2.2

/-- C6: `addCallback`, `addErrback` and `addCancelback` each return the
receiver (`this`, i.e. the same Promise instance) and append the listener
to the end of the registry, so registrations accumulate: two success
listeners registered and then `emitSuccess(42)` invokes both, in
registration order, each receiving 42. -/
theorem add_listeners_chain_and_accumulate (p : Promise) (l l1 l2 : Nat) :
    (p.addCallback l).2 = RetVal.self ∧
    (p.addErrback l).2 = RetVal.self ∧
    (p.addCancelback l).2 = RetVal.self ∧
    (p.addCallback l).1.listeners = p.listeners ++ [("success", l)] ∧
    (p.addErrback l).1.listeners = p.listeners ++ [("error", l)] ∧
    (p.addCancelback l).1.listeners = p.listeners ++ [("cancel", l)] ∧
    (runSeq freshPromise [Op.addCallback l1, Op.addCallback l2, Op.emitSuccess [Val.num 42]]).2
      = [⟨"success", [Val.num 42], [l1, l2]⟩] := by
  refine ⟨rfl, rfl, rfl, rfl, rfl, rfl, ?_⟩
  simp [runSeq, stepOp, Promise.addCallback, Promise.addListener, Promise.emitSuccess,
    Promise.recipients, freshPromise]

/-- C7: `timeout()` with no argument is a pure accessor: the promise state
is returned unchanged (no flag, listener list or timer is modified, nothing
is emitted) and the return value is the recorded `timeoutDuration`, or
`undefined` when none was ever set; in particular it returns 250 after
`timeout(250)` and `undefined` on a fresh promise. -/
theorem timeout_accessor_pure (p : Promise) :
    (p.timeout none).1 = p ∧
    (p.timeout none).2 = (match p.timeoutDuration with
                          | some n => RetVal.dur n
                          | none => RetVal.undef) ∧
    (stepOp p (Op.timeout none)).2 = [] ∧
    (Promise.timeout (Promise.timeout freshPromise (some 250)).1 none).2 = RetVal.dur 250 ∧
    (freshPromise.timeout none).2 = RetVal.undef :=
  ⟨rfl, rfl, rfl, rfl, rfl⟩

/-- Result of invoking one listener callback: it returns normally or raises. -/
inductive CallResult where
  | ok
  | raised
deriving DecidableEq, Repr

/-- Invoke one listener callback; whether it raises is prescribed by the
environment `throws`. -/
def invoke (throws : Nat → Bool) (l : Nat) : CallResult :=
  if throws l then CallResult.raised else CallResult.ok

/-- Modelled from the spec: the delivery loop of `observable.emit` is not
under `src/`; per spec section 4.1 it invokes every registered listener in
order and isolates each invocation, so a raised exception does not stop
delivery to the remaining listeners.  Returns each listener paired with
its outcome. -/
def deliver (throws : Nat → Bool) : List Nat → List (Nat × CallResult)
  | [] => []
  | l :: ls => (l, invoke throws l) :: deliver throws ls

/-- An operation together with the execution of the listener callbacks it
triggers: the state transition comes from the source promise code, the
delivery outcomes from the spec-modelled emit loop. -/
def stepOpD (throws : Nat → Bool) (p : Promise) (op : Op) :
    Promise × List (Nat × CallResult) :=
  let pr := stepOp p op
  (pr.1, (pr.2.map (fun em => deliver throws em.recipients)).flatten)

theorem deliver_map_fst (throws : Nat → Bool) (ls : List Nat) :
    (deliver throws ls).map Prod.fst = ls := by
  induction ls with
  | nil => rfl
  | cons l ls ih => simp [deliver, ih]

/-- C8: a listener callback that throws neither corrupts the promise's
internal state — for every operation, the resulting state is exactly the
one the operation set, independent of which listeners throw — nor prevents
the remaining listeners registered for the same event from being invoked:
every recipient of every emission is invoked, whatever `throws` says. -/
theorem listener_exception_isolated (throws throws' : Nat → Bool) (p : Promise) (op : Op) :
    (stepOpD throws p op).1 = (stepOp p op).1 ∧
    (stepOpD throws p op).1 = (stepOpD throws' p op).1 ∧
    ((stepOpD throws p op).2.map Prod.fst)
      = ((stepOp p op).2.map Emitted.recipients).flatten := by
  refine ⟨rfl, rfl, ?_⟩
  simp only [stepOpD]
  generalize (stepOp p op).2 = ems
  induction ems with
  | nil => rfl
  | cons em rest ih => simp [deliver_map_fst, ih]

/-- C9: `emitSuccess` and `emitError` set `hasFired` before invoking any
listener — the emission happens from the intermediate state with
`hasFired = true`, in which any re-entrant `emitSuccess`/`emitError` is a
no-op — so even when listeners re-enter the promise during an emission (the
`execOps` interpreter, where each listener runs an arbitrary script of
operations re-entrantly), at most one 'success'/'error' event is ever
emitted. -/
theorem reentrant_single_fire (fuel : Nat) (env : Nat → List Op) (ops : List Op)
    (q : Promise) (a b : List Val) (hq : q.hasFired = false) :
    countSE (execOps fuel env freshPromise ops).2 ≤ 1 ∧
    q.emitSuccess a
      = ({ q with hasFired := true }, [⟨"success", a, q.recipients "success"⟩]) ∧
    q.emitError a
      = ({ q with hasFired := true }, [⟨"error", a, q.recipients "error"⟩]) ∧
    Promise.emitSuccess { q with hasFired := true } b = ({ q with hasFired := true }, []) ∧
    Promise.emitError { q with hasFired := true } b = ({ q with hasFired := true }, []) := by
  refine ⟨?_, ?_, ?_, ?_, ?_⟩
  · have h := execOps_hasFired_eq fuel env freshPromise ops
    have hfresh : freshPromise.hasFired = false := rfl
    rw [hfresh] at h
    cases hb : (execOps fuel env freshPromise ops).1.hasFired <;> rw [hb] at h <;>
      simp at h <;> omega
  · simp [Promise.emitSuccess, hq, recipients_set_hasFired]
  · simp [Promise.emitError, hq, recipients_set_hasFired]
  · simp [Promise.emitSuccess]
  · simp [Promise.emitError]

theorem reentrant_single_fire_witness :
    countSE (execOps 5 (fun _ => [Op.emitError [Val.num 1]]) freshPromise
      [Op.addCallback 0, Op.emitSuccess []]).2 ≤ 1 :=
  (reentrant_single_fire 5 (fun _ => [Op.emitError [Val.num 1]])
    [Op.addCallback 0, Op.emitSuccess []] freshPromise [] [] (by decide)).1

/-- C10: a timeout timer that fires after the promise has already fired or
been cancelled emits nothing — it merely clears the stored handle — and
none of `emitSuccess`, `emitError`, `cancel` clears a pending timer. -/
theorem stale_timer_harmless (p q : Promise) (t : TimerH) (a b : List Val)
    (hq : q.timer = some t) (hqf : q.hasFired = true ∨ q.cancelled = true) :
    q.timerFire = ({ q with timer := none }, []) ∧
    (p.emitSuccess a).1.timer = p.timer ∧
    (p.emitError b).1.timer = p.timer ∧
    (p.cancel).1.timer = p.timer := by
  refine ⟨?_, ?_, ?_, ?_⟩
  · simp only [Promise.timerFire, hq]
    rcases hqf with h | h <;> simp [h, Promise.emitError]
  · by_cases h : p.hasFired <;> simp [Promise.emitSuccess, h]
  · by_cases h : p.hasFired <;> simp [Promise.emitError, h]
  · by_cases h : p.cancelled <;> simp [Promise.cancel, h, Promise.removeListener]

theorem stale_timer_harmless_witness :
    Promise.timerFire (runSeq freshPromise [Op.timeout (some 5), Op.emitSuccess []]).1
      = ({ (runSeq freshPromise [Op.timeout (some 5), Op.emitSuccess []]).1 with timer := none },
         []) :=
  (stale_timer_harmless freshPromise
    (runSeq freshPromise [Op.timeout (some 5), Op.emitSuccess []]).1 ⟨0, 5⟩ [] []
    (by decide) (Or.inl (by decide))).1

end Jiverscripts
